import Mathlib

/-!
# Portfolio front-end script: a shallow embedding of `frontend/script.js`

The script is browser glue around one HTTP helper (`apiCall`), a paginated
projects loader (`loadProjects`), a search routine (`performSearch`) and a
debounced input listener.  Each JavaScript function becomes a Lean function
over an explicit page state; an `await` on the network becomes a parameter
carrying what the network answered for that call, and every request handed
to `fetch` is appended to a log kept in the state.  `loadProjects` is given in
two halves, before and after its `await`, so that calls which overlap can be
run as well as calls which run alone.  Values typed into the search field are
sequences of UTF-16 code units, on which `encodeURIComponent` can throw.
-/

namespace Portfolio

/-! ## Configuration constants -/

/-- The constant `API_BASE_URL`. -/
def API_BASE_URL : String := "http://localhost:8000"

/-- The constant `API_KEY`. -/
def API_KEY : String := "supersecret123"

/-- The constant `PROJECTS_PER_PAGE`. -/
def PROJECTS_PER_PAGE : Nat := 3

/-! ## Plain objects with string values -/

/-- A JavaScript object whose values are strings: its own properties in
insertion order, each key occurring once. -/
abbrev Obj := List (String × String)

/-- Property read `o[k]`; `none` stands for `undefined`. -/
def Obj.get (o : Obj) (k : String) : Option String :=
  List.lookup k o

/-- Property write `o[k] = v`: an existing key keeps its position, a new key
goes last. -/
def Obj.set (o : Obj) (k v : String) : Obj :=
  if o.any (fun kv => kv.1 == k) then
    o.map (fun kv => if kv.1 == k then (k, v) else kv)
  else
    o ++ [(k, v)]

/-- Object spread `{ ...base, ...src }`: the properties of `src` are written
over `base` one by one. -/
def Obj.spread (base src : Obj) : Obj :=
  src.foldl (fun acc kv => acc.set kv.1 kv.2) base

/-! ## `apiCall` -/

/-- The `options` argument of `apiCall`; a field is `none` when the object has
no such own property. -/
structure Options where
  method : Option String := none
  headers : Option Obj := none
  body : Option String := none
  deriving DecidableEq

/-- The second argument of `fetch`, the object `{ headers, ...options }`. -/
structure FetchInit where
  headers : Obj
  method : Option String
  body : Option String
  deriving DecidableEq

/-- One call of `fetch`: the URL and the init object. -/
structure Request where
  url : String
  init : FetchInit
  deriving DecidableEq

/-- The local `headers` object of `apiCall` (lines 8-16): the JSON content
type, then the caller's headers spread over it, then the key for `PUT`. -/
def apiHeaders (options : Options) : Obj :=
  let headers := Obj.spread [("Content-Type", "application/json")] (options.headers.getD [])
  if options.method == some "PUT" then headers.set "X-API-Key" API_KEY else headers

/-- The object `{ headers, ...options }` of line 19-20: the shorthand
`headers` property comes first and the spread of `options` after it, so an
own `headers` property of `options` replaces the local one. -/
def fetchInit (options : Options) : FetchInit :=
  { headers := match options.headers with
      | some h => h
      | none => apiHeaders options
    method := options.method
    body := options.body }

/-- The request `apiCall(endpoint, options)` hands to `fetch` (line 18). -/
def apiRequest (endpoint : String) (options : Options) : Request :=
  { url := API_BASE_URL ++ endpoint, init := fetchInit options }

/-- What the network answers to one `fetch`: the promise rejects with an
error message, or resolves to a response with a status whose `json()` either
rejects or yields a value. -/
inductive FetchResult (α : Type) where
  | rejected (message : String)
  | response (status : Nat) (json : Except String α)

/-- The getter `response.ok`: the status is in the range 200-299. -/
def responseOk (status : Nat) : Bool :=
  decide (200 ≤ status) && decide (status ≤ 299)

/-- Lines 23-30 of `apiCall`, applied to the settled `fetch`: the value
returned, or the message of the error thrown (the `catch` of lines 31-34 logs
and rethrows the same error). -/
def apiResult {α : Type} : FetchResult α → Except String α
  | .rejected message => .error message
  | .response status json =>
    if !responseOk status then
      if status == 401 then
        .error "API key required for this operation"
      else
        .error ("HTTP error! status: " ++ toString status)
    else
      json

/-- Lines 7-21 of `apiCall`, up to its `await`: the request is handed to
`fetch`; `log` holds the requests handed to `fetch` so far. -/
def apiCallSend (endpoint : String) (options : Options) (log : List Request) : List Request :=
  log ++ [apiRequest endpoint options]

/-- The function `apiCall(endpoint, options)` from call to settlement: `net` is
the network's answer to this call and `log` the requests handed to `fetch` so
far. -/
def apiCall {α : Type} (endpoint : String) (options : Options) (net : FetchResult α)
    (log : List Request) : Except String α × List Request :=
  (apiResult net, apiCallSend endpoint options log)

/-- Truthiness of an optional string (`null`, `undefined` and the empty
string are falsy). -/
def truthy : Option String → Bool
  | some s => s != ""
  | none => false

/-- The expression `x || ''` for an optional string. -/
def orEmpty (x : Option String) : String :=
  if truthy x then x.getD "" else ""

/-- A UTF-16 code unit. -/
abbrev CodeUnit := Fin 65536

/-- A JavaScript string value: any sequence of UTF-16 code units, lone
surrogates included. -/
abbrev JSString := List CodeUnit

/-- The JavaScript string with the text of a Lean string. -/
def jsString (s : String) : JSString :=
  (s.data.map (fun ch =>
    if ch.toNat < 0x10000 then [Fin.ofNat ch.toNat]
    else [Fin.ofNat (0xD800 + (ch.toNat - 0x10000) / 0x400),
          Fin.ofNat (0xDC00 + (ch.toNat - 0x10000) % 0x400)])).flatten

/-- Code units removed by `String.prototype.trim`: the WhiteSpace and
LineTerminator productions of ECMAScript. -/
def jsIsWhiteSpace (c : CodeUnit) : Bool :=
  let n := c.val
  n == 0x09 || n == 0x0A || n == 0x0B || n == 0x0C || n == 0x0D || n == 0x20 ||
  n == 0xA0 || n == 0x1680 || (decide (0x2000 ≤ n) && decide (n ≤ 0x200A)) ||
  n == 0x2028 || n == 0x2029 || n == 0x202F || n == 0x205F || n == 0x3000 || n == 0xFEFF

/-- The method `String.prototype.trim`. -/
def jsTrim (s : JSString) : JSString :=
  ((s.dropWhile jsIsWhiteSpace).reverse.dropWhile jsIsWhiteSpace).reverse

/-! ## `encodeURIComponent` (ECMAScript `Encode` with the unreserved set) -/

/-- Code units `encodeURIComponent` leaves as they are: ASCII letters, digits
and `- _ . ! ~ * ' ( )`. -/
def isUriUnescaped (c : Nat) : Bool :=
  (decide (65 ≤ c) && decide (c ≤ 90)) || (decide (97 ≤ c) && decide (c ≤ 122)) ||
  (decide (48 ≤ c) && decide (c ≤ 57)) ||
  c == 45 || c == 95 || c == 46 || c == 33 || c == 126 || c == 42 || c == 39 ||
  c == 40 || c == 41

/-- Leading (high) surrogate code units. -/
def isLeadSurrogate (c : Nat) : Bool :=
  decide (0xD800 ≤ c) && decide (c ≤ 0xDBFF)

/-- Trailing (low) surrogate code units. -/
def isTrailSurrogate (c : Nat) : Bool :=
  decide (0xDC00 ≤ c) && decide (c ≤ 0xDFFF)

/-- The UTF-8 octets of a code point. -/
def utf8Octets (cp : Nat) : List Nat :=
  if cp < 0x80 then [cp]
  else if cp < 0x800 then [0xC0 + cp / 0x40, 0x80 + cp % 0x40]
  else if cp < 0x10000 then [0xE0 + cp / 0x1000, 0x80 + cp / 0x40 % 0x40, 0x80 + cp % 0x40]
  else [0xF0 + cp / 0x40000, 0x80 + cp / 0x1000 % 0x40, 0x80 + cp / 0x40 % 0x40,
        0x80 + cp % 0x40]

/-- An upper-case hexadecimal digit. -/
def hexDigit (n : Nat) : Char :=
  Char.ofNat (if n < 10 then 48 + n else 55 + n)

/-- The escape of one code point: `%XX` for each of its UTF-8 octets. -/
def percentEncode (cp : Nat) : String :=
  String.join ((utf8Octets cp).map (fun octet =>
    "%" ++ String.singleton (hexDigit (octet / 16)) ++ String.singleton (hexDigit (octet % 16))))

/-- The loop of `Encode`; `lead` is a leading surrogate read and not yet
paired.  `none` is the `URIError` thrown at an unpaired surrogate. -/
def encodeFrom : Option Nat → JSString → Option String
  | none, [] => some ""
  | some _, [] => none
  | some lead, c :: rest =>
    if isTrailSurrogate c.val then
      (encodeFrom none rest).map (fun encoded =>
        percentEncode ((lead - 0xD800) * 0x400 + (c.val - 0xDC00) + 0x10000) ++ encoded)
    else none
  | none, c :: rest =>
    if isUriUnescaped c.val then
      (encodeFrom none rest).map (fun encoded => String.singleton (Char.ofNat c.val) ++ encoded)
    else if isTrailSurrogate c.val then none
    else if isLeadSurrogate c.val then encodeFrom (some c.val) rest
    else (encodeFrom none rest).map (fun encoded => percentEncode c.val ++ encoded)

/-- The global `encodeURIComponent`; `none` when it throws `URIError`. -/
def encodeURIComponent (s : JSString) : Option String :=
  encodeFrom none s

/-! ## Data model -/

/-- A skill as the projects view reads it. -/
structure Skill where
  name : String
  deriving DecidableEq

/-- An element of the array returned by `/projects`.  `skills` is `none` when
`project.skills.map` cannot be called (the element is `null` or has no `skills`
array); an element of `skills` is `none` when it is `null`, on which
`skill.name` throws. -/
structure Project where
  title : String
  description : String
  skills : Option (List (Option Skill))
  github_url : Option String
  live_url : Option String
  deriving DecidableEq

/-- A search result as received from `/search`. -/
structure SearchResult where
  type : String
  title : String
  description : String
  deriving DecidableEq

/-- Browser functions used by the script whose code is not part of it. -/
structure Env where
  /-- Serialisation of one value by `URLSearchParams.prototype.toString`. -/
  formEncode : String → String
  /-- The `message` of the `URIError` thrown by `encodeURIComponent`. -/
  uriErrorMessage : String
  /-- The `message` of the `TypeError` thrown while the project is rendered. -/
  typeErrorMessage : Project → String

/-- The module-level variables of the projects loader (lines 83-86), the two
DOM regions the modelled functions write, and the log of requests handed to
`fetch`. -/
structure Page where
  currentOffset : Nat
  allProjects : List Project
  hasMoreProjects : Bool
  projectsContent : String
  searchResults : String
  requests : List Request
  deriving DecidableEq

/-- The state when the script has been evaluated and no function has run:
lines 83-86, with the markup the two regions start with. -/
def Page.initial (projectsContent searchResults : String) : Page :=
  { currentOffset := 0
    allProjects := []
    hasMoreProjects := true
    projectsContent := projectsContent
    searchResults := searchResults
    requests := [] }

/-! ## `loadProjects` -/

/-- The `linksHtml` array of lines 127-133. -/
def linksHtml (project : Project) : List String :=
  (if truthy project.github_url then
    ["<a href=\"" ++ project.github_url.getD "" ++ "\" target=\"_blank\">GitHub</a>"] else []) ++
  (if truthy project.live_url then
    ["<a href=\"" ++ project.live_url.getD "" ++ "\" target=\"_blank\">Live Demo</a>"] else [])

/-- The callback of `project.skills.map` (lines 123-125) over the elements in
order; `none` when it throws on a `null` element. -/
def skillTags : List (Option Skill) → Option (List String)
  | [] => some []
  | none :: _ => none
  | some skill :: rest =>
    (skillTags rest).map (fun tags =>
      ("<span class=\"skill-tag\">" ++ skill.name ++ "</span>") :: tags)

/-- The callback of `allProjects.map` (lines 122-143) for one project; the
error is the `TypeError` thrown on line 123 or 124. -/
def projectCard (env : Env) (project : Project) : Except String String :=
  match project.skills.bind skillTags with
  | none => .error (env.typeErrorMessage project)
  | some tags =>
    let skillsHtml := String.join tags
    let links := linksHtml project
    .ok ("\n                <div class=\"project-card\">\n                    <h3>" ++ project.title ++
      "</h3>\n                    <p>" ++ project.description ++
      "</p>\n                    <div style=\"margin: 10px 0;\">" ++ skillsHtml ++
      "</div>\n                    " ++
      (if links.length > 0 then
        "<div class=\"links\">" ++ " | ".intercalate links ++ "</div>" else "") ++
      "\n                </div>\n            ")

/-- The local `projectsHtml` (lines 122-143): the cards joined, or the error
thrown at the first project that does not render. -/
def projectsHtml (env : Env) (projects : List Project) : Except String String :=
  (projects.mapM (projectCard env)).map String.join

/-- The local `loadMoreHtml` (lines 146-153). -/
def loadMoreHtml (hasMoreProjects : Bool) (skillFilter : Option String) : String :=
  if hasMoreProjects then
    "\n            <div style=\"margin-top: 20px; text-align: center;\">\n                <button onclick=\"loadMoreProjects(\x27" ++
      orEmpty skillFilter ++
      "\x27)\" \n                        style=\"padding: 10px 20px; background: #007bff; color: white; border: none; border-radius: 5px; cursor: pointer;\">\n                    Load More Projects\n                </button>\n            </div>\n        "
  else ""

/-- The endpoint of lines 99-108: `limit` and `offset`, then `skill` when the
filter is truthy. -/
def projectsEndpoint (env : Env) (offset : Nat) (skillFilter : Option String) : String :=
  "/projects?" ++ "limit=" ++ toString PROJECTS_PER_PAGE ++ "&offset=" ++ toString offset ++
    (if truthy skillFilter then "&skill=" ++ env.formEncode (skillFilter.getD "") else "")

/-- The `catch` block of `loadProjects` (lines 157-159). -/
def loadProjectsCatch (message : String) (p : Page) : Page :=
  { p with projectsContent := "<div class=\"error\">Failed to load projects: " ++ message ++ "</div>" }

/-- The reset a fresh load starts with (lines 92-97). -/
def loadProjectsReset (loadMore : Bool) (p : Page) : Page :=
  if !loadMore then
    { p with
      currentOffset := 0
      allProjects := []
      hasMoreProjects := true
      projectsContent := "<p class=\"loading\">Loading projects...</p>" }
  else p

/-- The part of `loadProjects(loadMore, skillFilter)` that runs before it
suspends at `await apiCall(endpoint)` (lines 89-109): the reset of a fresh
load, then the request for the offset then in `currentOffset`. -/
def loadProjectsStart (env : Env) (loadMore : Bool) (skillFilter : Option String)
    (p : Page) : Page :=
  let p1 := loadProjectsReset loadMore p
  let endpoint := projectsEndpoint env p1.currentOffset skillFilter
  { p1 with requests := apiCallSend endpoint {} p1.requests }

/-- The part of `loadProjects(loadMore, skillFilter)` that runs when the
awaited `apiCall` has settled with `answer` (lines 109-159); `p` is the page
at that moment, which other code may have changed since the call suspended. -/
def loadProjectsResume (env : Env) (loadMore : Bool) (skillFilter : Option String)
    (answer : Except String (List Project)) (p : Page) : Page :=
  match answer with
  | .error message => loadProjectsCatch message p
  | .ok projects =>
    if !loadMore && projects.length == 0 then
      { p with projectsContent := "<p>No projects found.</p>" }
    else
      let p3 := { p with
        hasMoreProjects := if projects.length < PROJECTS_PER_PAGE then false else p.hasMoreProjects }
      let p4 := { p3 with allProjects := if loadMore then p3.allProjects ++ projects else projects }
      match projectsHtml env p4.allProjects with
      | .error message => loadProjectsCatch message p4
      | .ok html =>
        { p4 with
          projectsContent := html ++ loadMoreHtml p4.hasMoreProjects skillFilter
          currentOffset := p4.currentOffset + PROJECTS_PER_PAGE }

/-- The function `loadProjects(loadMore, skillFilter)` run from call to
completion with nothing else running while it is suspended; `net` is the
network's answer to the one request it makes. -/
def loadProjects (env : Env) (loadMore : Bool) (skillFilter : Option String)
    (net : FetchResult (List Project)) (p : Page) : Page :=
  loadProjectsResume env loadMore skillFilter (apiResult net)
    (loadProjectsStart env loadMore skillFilter p)

/-- The helper `loadMoreProjects(skillFilter)` (lines 163-165). -/
def loadMoreProjects (env : Env) (skillFilter : Option String)
    (net : FetchResult (List Project)) (p : Page) : Page :=
  loadProjects env true skillFilter net p

/-! ## `performSearch` -/

/-- The callback of `results.map` (lines 186-192). -/
def searchResultCard (result : SearchResult) : String :=
  "\n            <div class=\"search-result\">\n                <div class=\"search-result-type\">" ++
    result.type ++ "</div>\n                <h4>" ++ result.title ++
    "</h4>\n                <p>" ++ result.description ++ "</p>\n            </div>\n        "

/-- The `catch` block of `performSearch` (lines 195-197). -/
def performSearchCatch (message : String) (p : Page) : Page :=
  { p with searchResults := "<div class=\"error\">Search failed: " ++ message ++ "</div>" }

/-- The function `performSearch(query)` run to completion; `net` is the
network's answer to the request it makes, if it makes one.  The argument of
`apiCall` on line 179 is evaluated inside the `try`, so a `URIError` of
`encodeURIComponent` goes to the `catch` block before anything is handed to
`fetch`. -/
def performSearch (env : Env) (query : JSString) (net : FetchResult (List SearchResult))
    (p : Page) : Page :=
  if jsTrim query == [] then
    { p with searchResults := "" }
  else
    let p1 := { p with searchResults := "<p class=\"loading\">Searching...</p>" }
    match encodeURIComponent query with
    | none => performSearchCatch env.uriErrorMessage p1
    | some encoded =>
      let called := apiCall ("/search?q=" ++ encoded) {} net p1.requests
      let p2 := { p1 with requests := called.2 }
      match called.1 with
      | .error message => performSearchCatch message p2
      | .ok results =>
        if results.length == 0 then
          { p2 with searchResults := "<p>No results found.</p>" }
        else
          { p2 with searchResults := String.join (results.map searchResultCard) }

/-! ## The debounced input listener (lines 208-219) -/

/-- A timer armed by `setTimeout(() => performSearch(query), 300)`. -/
structure Timer where
  fireAt : Nat
  query : JSString
  deriving DecidableEq

/-- The search box: the timer behind the one handle `searchTimeout`, if it is
armed and has not run, the page, and the arguments `performSearch` has been
called with, oldest first. -/
structure SearchBox where
  searchTimeout : Option Timer
  page : Page
  searched : List JSString
  deriving DecidableEq

/-- Events of the search box, in milliseconds of one clock: an `input` event
delivered to the listener, and a turn of the event loop at which a timer whose
delay has elapsed runs. -/
inductive Event where
  | input (t : Nat) (value : JSString)
  | timers (t : Nat)
  deriving DecidableEq

/-- The delay of line 218. -/
def SEARCH_DELAY : Nat := 300

/-- One event.  The listener (lines 211-219) clears the pending timer and arms
a new one for its own value; at a timer turn the armed callback runs
`performSearch(query)` once its delay has elapsed, `net` giving the network's
answer to the search for each query. -/
def step (env : Env) (net : JSString → FetchResult (List SearchResult)) (s : SearchBox) :
    Event → SearchBox
  | .input t value => { s with searchTimeout := some { fireAt := t + SEARCH_DELAY, query := value } }
  | .timers t =>
    match s.searchTimeout with
    | none => s
    | some timer =>
      if timer.fireAt ≤ t then
        { searchTimeout := none
          page := performSearch env timer.query (net timer.query) s.page
          searched := s.searched ++ [timer.query] }
      else s

/-- The listener calls for a list of timed inputs, each preceded by the timer
turn of its own time. -/
def inputEvents (inputs : List (Nat × JSString)) : List Event :=
  (inputs.map (fun i => [Event.timers i.1, Event.input i.1 i.2])).flatten

/-- The events the browser produces for input events given with their times:
before each listener call the timers due by then run, and after the last one
the clock goes on to `tEnd`. -/
def eventsOf (inputs : List (Nat × JSString)) (tEnd : Nat) : List Event :=
  inputEvents inputs ++ [Event.timers tEnd]

/-- Run a list of events from a state. -/
def run (env : Env) (net : JSString → FetchResult (List SearchResult)) (s : SearchBox)
    (events : List Event) : SearchBox :=
  events.foldl (step env net) s

/-- The search box when the listener has been attached: no timer armed
(line 209) and nothing searched. -/
def SearchBox.initial (page : Page) : SearchBox :=
  { searchTimeout := none, page := page, searched := [] }

/-- The pending timer, if any, is not yet due at the time of the first of the
inputs. -/
def notDue (s : SearchBox) (inputs : List (Nat × JSString)) : Bool :=
  match s.searchTimeout, inputs with
  | some timer, first :: _ => decide (first.1 < timer.fireAt)
  | _, _ => true

/-- Each input arrives less than 300 ms after the one before it. -/
def burst : List (Nat × JSString) → Bool
  | [] => true
  | [_] => true
  | a :: b :: rest => decide (b.1 < a.1 + SEARCH_DELAY) && burst (b :: rest)

/-- One call in a session of the projects view: `loadProjects(loadMore,
skillFilter)` and what the network answers to it. -/
structure Call where
  loadMore : Bool
  skillFilter : Option String
  net : FetchResult (List Project)

/-- Calls of `loadProjects` run one after another, each to completion. -/
def runCalls (env : Env) (p : Page) (calls : List Call) : Page :=
  calls.foldl (fun q c => loadProjects env c.loadMore c.skillFilter c.net q) p

/-- The page a call receives; empty when its API call fails. -/
def Call.page (c : Call) : List Project :=
  match apiResult c.net with
  | .ok projects => projects
  | .error _ => []

/-- The API call of the call returns a page. -/
def Call.succeeds (c : Call) : Bool :=
  match apiResult c.net with
  | .ok _ => true
  | .error _ => false

/-- The project is well formed: it has a `skills` array and no element of the
array is `null`. -/
def Project.wellFormed (project : Project) : Bool :=
  match project.skills with
  | some skills => skills.all Option.isSome
  | none => false

/-- The call either fails in the API call or receives at most
`PROJECTS_PER_PAGE` projects, each well formed. -/
def Call.admissible (c : Call) : Bool :=
  match apiResult c.net with
  | .ok projects => decide (projects.length ≤ PROJECTS_PER_PAGE) && projects.all Project.wellFormed
  | .error _ => true

/-- The invariant of the projects view: every accumulated project is well
formed, and while more is on offer the offset counts the accumulated
projects. -/
def Page.coherent (p : Page) : Prop :=
  p.allProjects.all Project.wellFormed = true ∧
  (p.hasMoreProjects = true → p.allProjects.length = p.currentOffset)

instance (p : Page) : Decidable p.coherent :=
  inferInstanceAs (Decidable (_ ∧ _))

/-! ## Sample data for concrete runs -/

/-- An environment for concrete runs; the form encoder leaves its argument as
it is, which is what it does on letters and digits. -/
def sampleEnv : Env :=
  { formEncode := fun v => v
    uriErrorMessage := "URI malformed"
    typeErrorMessage := fun _ => "Cannot read properties of undefined (reading \x27map\x27)" }

/-- A project with one skill and a GitHub link. -/
def sampleProject (title : String) : Project :=
  { title := title
    description := "demo"
    skills := some [some { name := "Lean" }]
    github_url := some "https://example.org/repo"
    live_url := none }

/-- A project object without a `skills` array. -/
def brokenProject : Project :=
  { title := "x", description := "y", skills := none, github_url := none, live_url := none }

/-- A project object whose `skills` array holds a `null`. -/
def nullSkillProject : Project :=
  { title := "x", description := "y", skills := some [none], github_url := none,
    live_url := none }

/-- A page after one full page has been loaded. -/
def samplePage : Page :=
  { currentOffset := 3
    allProjects := [sampleProject "a", sampleProject "b", sampleProject "c"]
    hasMoreProjects := true
    projectsContent := "cards"
    searchResults := ""
    requests := [] }

/-- A search backend that finds nothing. -/
def sampleSearchNet : JSString → FetchResult (List SearchResult) :=
  fun _ => FetchResult.response 200 (Except.ok [])

/-- A 200 response whose body is the given page of projects. -/
def okPage (projects : List Project) : FetchResult (List Project) :=
  FetchResult.response 200 (Except.ok projects)

/-! ## `apiCall`: statuses and headers -/

/-- A status outside 200-299 makes `apiCall` throw: 401 gives the API-key
message, every other status the message with the status in decimal. -/
theorem apiResult_not_ok {α : Type} (status : Nat) (json : Except String α)
    (h : responseOk status = false) :
    apiResult (FetchResult.response status json) =
      Except.error (if status = 401 then "API key required for this operation"
        else "HTTP error! status: " ++ toString status) := by
  by_cases h401 : status = 401
  · subst h401
    simp [apiResult, h]
  · simp [apiResult, h, h401]

/-- C4 (amended): for every status outside 200-299 `apiCall` fails and hands
the request to `fetch` first; for 401 the message is the API-key message, and
for every other such status, 403 included, the message is
`HTTP error! status: ` followed by the status in decimal, so it contains the
decimal representation of the status. -/
theorem apiCall_non2xx_message {α : Type} (endpoint : String) (options : Options)
    (status : Nat) (json : Except String α) (log : List Request)
    (h : responseOk status = false) :
    (status = 401 →
      apiCall endpoint options (FetchResult.response status json) log =
        (Except.error "API key required for this operation",
          log ++ [apiRequest endpoint options])) ∧
    (status ≠ 401 →
      apiCall endpoint options (FetchResult.response status json) log =
        (Except.error ("HTTP error! status: " ++ toString status),
          log ++ [apiRequest endpoint options]) ∧
      (toString status).data <:+: ("HTTP error! status: " ++ toString status).data) := by
  refine ⟨fun h401 => ?_, fun h401 => ⟨?_, ?_⟩⟩
  · rw [apiCall, apiResult_not_ok status json h, if_pos h401]
    rfl
  · rw [apiCall, apiResult_not_ok status json h, if_neg h401]
    rfl
  · rw [String.data_append]
    exact (List.suffix_append _ _).isInfix

/-- C4: at status 500 the message carries the status; at 401 it is the
API-key message. -/
theorem apiCall_non2xx_message_witness :
    responseOk 500 = false ∧
    ((500 = 401 →
      apiCall "/profile" {} (FetchResult.response 500 (Except.ok ())) [] =
        (Except.error "API key required for this operation",
          [] ++ [apiRequest "/profile" {}])) ∧
    (500 ≠ 401 →
      apiCall "/profile" {} (FetchResult.response 500 (Except.ok ())) [] =
        (Except.error ("HTTP error! status: " ++ toString 500),
          [] ++ [apiRequest "/profile" {}]) ∧
      (toString 500).data <:+: ("HTTP error! status: " ++ toString 500).data)) :=
  ⟨by decide, apiCall_non2xx_message "/profile" {} 500 (Except.ok ()) [] (by decide)⟩

/-- C4 (as stated) fails at status 403: `apiCall` throws
`HTTP error! status: 403`, not the API-key message. -/
theorem apiCall_403_not_auth_message :
    responseOk 403 = false ∧
    apiResult (FetchResult.response 403 (Except.ok ())) =
      Except.error "HTTP error! status: 403" ∧
    apiResult (FetchResult.response 403 (Except.ok ())) ≠
      Except.error "API key required for this operation" := by
  refine ⟨by decide, ?_, ?_⟩
  · rw [apiResult_not_ok 403 (Except.ok ()) (by decide)]
    rfl
  · rw [apiResult_not_ok 403 (Except.ok ()) (by decide)]
    simp only [ne_eq, Except.error.injEq]
    decide

/-- With no `headers` property in `options`, a `PUT` request carries the key. -/
theorem put_without_headers_has_key (endpoint : String) (options : Options)
    (hm : options.method = some "PUT") (hh : options.headers = none) :
    (apiRequest endpoint options).init.headers.get "X-API-Key" = some API_KEY := by
  simp [apiRequest, fetchInit, apiHeaders, hm, hh, Obj.spread, Obj.set, Obj.get, List.lookup]

/-- When `options` has its own `headers`, the request carries exactly those:
the spread of `options` on line 20 replaces the local `headers` object. -/
theorem own_headers_replace_local (endpoint : String) (options : Options) (h : Obj)
    (hh : options.headers = some h) :
    (apiRequest endpoint options).init.headers = h := by
  simp [apiRequest, fetchInit, hh]

/-- C5 fails at `apiCall('/profile', { method: 'PUT', headers: { Accept:
'application/json' } })`: the local `headers` object holds the key, the
request handed to `fetch` does not. -/
theorem put_with_own_headers_loses_key :
    (apiHeaders { method := some "PUT", headers := some [("Accept", "application/json")] }).get
        "X-API-Key" = some API_KEY ∧
    (apiRequest "/profile"
        { method := some "PUT", headers := some [("Accept", "application/json")] }
      ).init.headers.get "X-API-Key" = none ∧
    (apiCall "/profile"
        { method := some "PUT", headers := some [("Accept", "application/json")] }
        (FetchResult.response 200 (Except.ok ())) []).2 =
      [{ url := "http://localhost:8000/profile"
         init := { headers := [("Accept", "application/json")]
                   method := some "PUT"
                   body := none } }] := by
  refine ⟨by decide, by decide, by decide⟩

/-! ## `loadProjects`: the two halves of one call -/

/-- Before it suspends, a call writes the reset of a fresh load and hands one
request to `fetch`, for the offset then in `currentOffset`. -/
theorem loadProjectsStart_eq (env : Env) (loadMore : Bool) (skillFilter : Option String)
    (p : Page) :
    loadProjectsStart env loadMore skillFilter p =
      { loadProjectsReset loadMore p with
        requests := p.requests ++ [apiRequest
          (projectsEndpoint env (if loadMore then p.currentOffset else 0) skillFilter) {}] } := by
  cases loadMore <;> rfl

/-- The condition of line 111 is false unless the load is fresh and the page
empty. -/
theorem guard_false_of_not_fresh_empty (loadMore : Bool) (projects : List Project)
    (h : ¬ (loadMore = false ∧ projects = [])) :
    (!loadMore && projects.length == 0) = false := by
  cases loadMore <;> simp_all

/-- A fresh load resumed with an empty page returns at line 113: only the
region changes. -/
theorem loadProjectsResume_fresh_empty (env : Env) (skillFilter : Option String) (q : Page) :
    loadProjectsResume env false skillFilter (Except.ok []) q =
      { q with projectsContent := "<p>No projects found.</p>" } := by
  simp [loadProjectsResume]

/-- A call resumed with a page that takes it past line 113, written out over
the page `q` it resumes on: lines 116-120 update the flag and the list, then
either rendering throws and the `catch` block writes the error, or lines
155-156 write the region and add the page size to `currentOffset`. -/
theorem loadProjectsResume_past_guard (env : Env) (loadMore : Bool)
    (skillFilter : Option String) (q : Page) (projects : List Project)
    (hfe : ¬ (loadMore = false ∧ projects = [])) :
    loadProjectsResume env loadMore skillFilter (Except.ok projects) q =
      match projectsHtml env (if loadMore then q.allProjects ++ projects else projects) with
      | Except.error message =>
        { currentOffset := q.currentOffset
          allProjects := if loadMore then q.allProjects ++ projects else projects
          hasMoreProjects :=
            if projects.length < PROJECTS_PER_PAGE then false else q.hasMoreProjects
          projectsContent := "<div class=\"error\">Failed to load projects: " ++ message ++ "</div>"
          searchResults := q.searchResults
          requests := q.requests }
      | Except.ok html =>
        { currentOffset := q.currentOffset + PROJECTS_PER_PAGE
          allProjects := if loadMore then q.allProjects ++ projects else projects
          hasMoreProjects :=
            if projects.length < PROJECTS_PER_PAGE then false else q.hasMoreProjects
          projectsContent := html ++ loadMoreHtml
            (if projects.length < PROJECTS_PER_PAGE then false else q.hasMoreProjects)
            skillFilter
          searchResults := q.searchResults
          requests := q.requests } := by
  have hguard := guard_false_of_not_fresh_empty loadMore projects hfe
  simp only [loadProjectsResume, hguard]
  rcases hr : projectsHtml env (if loadMore then q.allProjects ++ projects else projects)
    with message | html <;> simp [loadProjectsCatch, hr]

/-! ## `loadProjects`: one call run alone -/

/-- A failing API call: the reset of a fresh load stays, the request is
logged, and the `catch` block writes the error. -/
theorem loadProjects_of_error (env : Env) (loadMore : Bool) (skillFilter : Option String)
    (net : FetchResult (List Project)) (p : Page) (message : String)
    (h : apiResult net = Except.error message) :
    loadProjects env loadMore skillFilter net p =
      loadProjectsCatch message
        { loadProjectsReset loadMore p with
          requests := (loadProjectsReset loadMore p).requests ++
            [apiRequest (projectsEndpoint env (loadProjectsReset loadMore p).currentOffset
              skillFilter) {}] } := by
  simp [loadProjects, loadProjectsResume, loadProjectsStart, apiCallSend, h]

/-- A fresh load whose page is empty returns at line 113. -/
theorem loadProjects_fresh_empty (env : Env) (skillFilter : Option String)
    (net : FetchResult (List Project)) (p : Page) (h : apiResult net = Except.ok []) :
    loadProjects env false skillFilter net p =
      { currentOffset := 0
        allProjects := []
        hasMoreProjects := true
        projectsContent := "<p>No projects found.</p>"
        searchResults := p.searchResults
        requests := p.requests ++ [apiRequest (projectsEndpoint env 0 skillFilter) {}] } := by
  rw [loadProjects, h, loadProjectsResume_fresh_empty, loadProjectsStart_eq]
  rfl

/-- A successful call that goes past line 113, written out: lines 116-120
update the flag and the list, then either rendering throws and the `catch`
block writes the error, or lines 155-156 write the region and advance the
offset. -/
theorem loadProjects_past_guard (env : Env) (loadMore : Bool) (skillFilter : Option String)
    (net : FetchResult (List Project)) (p : Page) (projects : List Project)
    (hok : apiResult net = Except.ok projects)
    (hfe : ¬ (loadMore = false ∧ projects = [])) :
    loadProjects env loadMore skillFilter net p =
      match projectsHtml env (if loadMore then p.allProjects ++ projects else projects) with
      | Except.error message =>
        { currentOffset := if loadMore then p.currentOffset else 0
          allProjects := if loadMore then p.allProjects ++ projects else projects
          hasMoreProjects :=
            if projects.length < PROJECTS_PER_PAGE then false
            else if loadMore then p.hasMoreProjects else true
          projectsContent := "<div class=\"error\">Failed to load projects: " ++ message ++ "</div>"
          searchResults := p.searchResults
          requests := p.requests ++ [apiRequest
            (projectsEndpoint env (if loadMore then p.currentOffset else 0) skillFilter) {}] }
      | Except.ok html =>
        { currentOffset := (if loadMore then p.currentOffset else 0) + PROJECTS_PER_PAGE
          allProjects := if loadMore then p.allProjects ++ projects else projects
          hasMoreProjects :=
            if projects.length < PROJECTS_PER_PAGE then false
            else if loadMore then p.hasMoreProjects else true
          projectsContent := html ++ loadMoreHtml
            (if projects.length < PROJECTS_PER_PAGE then false
              else if loadMore then p.hasMoreProjects else true) skillFilter
          searchResults := p.searchResults
          requests := p.requests ++ [apiRequest
            (projectsEndpoint env (if loadMore then p.currentOffset else 0) skillFilter) {}] } := by
  rw [loadProjects, hok, loadProjectsResume_past_guard env loadMore skillFilter _ projects hfe,
    loadProjectsStart_eq]
  cases loadMore
  · rcases hr : projectsHtml env projects with message | html <;>
      simp [loadProjectsReset, hr]
  · rcases hr : projectsHtml env (p.allProjects ++ projects) with message | html <;>
      simp [loadProjectsReset, hr]

/-- The list a successful call leaves in `allProjects`, whether or not
rendering throws. -/
theorem loadProjects_allProjects (env : Env) (loadMore : Bool) (skillFilter : Option String)
    (net : FetchResult (List Project)) (p : Page) (projects : List Project)
    (hok : apiResult net = Except.ok projects) :
    (loadProjects env loadMore skillFilter net p).allProjects =
      if loadMore then p.allProjects ++ projects else projects := by
  by_cases hfe : loadMore = false ∧ projects = []
  · obtain ⟨rfl, rfl⟩ := hfe
    rw [loadProjects_fresh_empty env skillFilter net p hok]
    rfl
  · rw [loadProjects_past_guard env loadMore skillFilter net p projects hok hfe]
    rcases projectsHtml env (if loadMore then p.allProjects ++ projects else projects)
      with message | html <;> rfl

/-- The flag after a successful call that goes past line 113: cleared by a
short page, otherwise the value after the reset. -/
theorem loadProjects_hasMore (env : Env) (loadMore : Bool) (skillFilter : Option String)
    (net : FetchResult (List Project)) (p : Page) (projects : List Project)
    (hok : apiResult net = Except.ok projects)
    (hfe : ¬ (loadMore = false ∧ projects = [])) :
    (loadProjects env loadMore skillFilter net p).hasMoreProjects =
      if projects.length < PROJECTS_PER_PAGE then false
      else if loadMore then p.hasMoreProjects else true := by
  rw [loadProjects_past_guard env loadMore skillFilter net p projects hok hfe]
  rcases projectsHtml env (if loadMore then p.allProjects ++ projects else projects)
    with message | html <;> rfl

/-- The region and the offset after a successful call that goes past line 113
and renders. -/
theorem loadProjects_content_ok (env : Env) (loadMore : Bool) (skillFilter : Option String)
    (net : FetchResult (List Project)) (p : Page) (projects : List Project) (html : String)
    (hok : apiResult net = Except.ok projects)
    (hfe : ¬ (loadMore = false ∧ projects = []))
    (hr : projectsHtml env (if loadMore then p.allProjects ++ projects else projects)
      = Except.ok html) :
    (loadProjects env loadMore skillFilter net p).projectsContent =
      html ++ loadMoreHtml
        (if projects.length < PROJECTS_PER_PAGE then false
          else if loadMore then p.hasMoreProjects else true) skillFilter ∧
    (loadProjects env loadMore skillFilter net p).currentOffset =
      (if loadMore then p.currentOffset else 0) + PROJECTS_PER_PAGE := by
  rw [loadProjects_past_guard env loadMore skillFilter net p projects hok hfe, hr]
  exact ⟨rfl, rfl⟩

/-- The region and the offset after a successful call that goes past line 113
and throws while rendering: the offset is not advanced. -/
theorem loadProjects_content_throw (env : Env) (loadMore : Bool) (skillFilter : Option String)
    (net : FetchResult (List Project)) (p : Page) (projects : List Project) (message : String)
    (hok : apiResult net = Except.ok projects)
    (hfe : ¬ (loadMore = false ∧ projects = []))
    (hr : projectsHtml env (if loadMore then p.allProjects ++ projects else projects)
      = Except.error message) :
    (loadProjects env loadMore skillFilter net p).projectsContent =
      "<div class=\"error\">Failed to load projects: " ++ message ++ "</div>" ∧
    (loadProjects env loadMore skillFilter net p).currentOffset =
      if loadMore then p.currentOffset else 0 := by
  rw [loadProjects_past_guard env loadMore skillFilter net p projects hok hfe, hr]
  exact ⟨rfl, rfl⟩

/-- Every call logs exactly one request: the page at the offset in force after
the reset. -/
theorem loadProjects_requests (env : Env) (loadMore : Bool) (skillFilter : Option String)
    (net : FetchResult (List Project)) (p : Page) :
    (loadProjects env loadMore skillFilter net p).requests =
      p.requests ++ [apiRequest
        (projectsEndpoint env (if loadMore then p.currentOffset else 0) skillFilter) {}] := by
  rcases hnet : apiResult net with message | projects
  · rw [loadProjects_of_error env loadMore skillFilter net p message hnet]
    cases loadMore <;> rfl
  · by_cases hfe : loadMore = false ∧ projects = []
    · obtain ⟨rfl, rfl⟩ := hfe
      rw [loadProjects_fresh_empty env skillFilter net p hnet]
      rfl
    · rw [loadProjects_past_guard env loadMore skillFilter net p projects hnet hfe]
      rcases projectsHtml env (if loadMore then p.allProjects ++ projects else projects)
        with message | html <;> rfl

/-- C1 (amended): a successful fetch of fewer than 3 items never writes the
load-more fragment: a fresh load of an empty page returns at the empty-state
message with `hasMoreProjects` still true from the reset; every other such
call leaves `hasMoreProjects` false, so the fragment appended to the cards is
the empty string and the region holds the cards alone (or the error message
when a project has no `skills`). -/
theorem loadProjects_short_page (env : Env) (loadMore : Bool) (skillFilter : Option String)
    (net : FetchResult (List Project)) (p : Page) (projects : List Project)
    (hok : apiResult net = Except.ok projects)
    (hk : projects.length < PROJECTS_PER_PAGE) :
    (loadMore = false ∧ projects = [] →
      (loadProjects env loadMore skillFilter net p).hasMoreProjects = true ∧
      (loadProjects env loadMore skillFilter net p).projectsContent =
        "<p>No projects found.</p>") ∧
    (¬ (loadMore = false ∧ projects = []) →
      (loadProjects env loadMore skillFilter net p).hasMoreProjects = false ∧
      loadMoreHtml (loadProjects env loadMore skillFilter net p).hasMoreProjects skillFilter
        = "" ∧
      (∀ html, projectsHtml env (if loadMore then p.allProjects ++ projects else projects)
          = Except.ok html →
        (loadProjects env loadMore skillFilter net p).projectsContent = html) ∧
      (∀ message, projectsHtml env (if loadMore then p.allProjects ++ projects else projects)
          = Except.error message →
        (loadProjects env loadMore skillFilter net p).projectsContent =
          "<div class=\"error\">Failed to load projects: " ++ message ++ "</div>")) := by
  constructor
  · rintro ⟨rfl, rfl⟩
    rw [loadProjects_fresh_empty env skillFilter net p hok]
    exact ⟨rfl, rfl⟩
  · intro hne
    have hh := loadProjects_hasMore env loadMore skillFilter net p projects hok hne
    rw [if_pos hk] at hh
    refine ⟨hh, by rw [hh]; rfl, fun html hr => ?_, fun message hr => ?_⟩
    · have hc := (loadProjects_content_ok env loadMore skillFilter net p projects html
        hok hne hr).1
      rw [if_pos hk] at hc
      rw [hc]
      simp [loadMoreHtml]
    · exact (loadProjects_content_throw env loadMore skillFilter net p projects message
        hok hne hr).1

/-- C1: a load-more call that receives one project clears the flag and
appends no load-more fragment. -/
theorem loadProjects_short_page_witness :
    (loadProjects sampleEnv true none (okPage [sampleProject "d"]) samplePage).hasMoreProjects
      = false ∧
    loadMoreHtml
      (loadProjects sampleEnv true none (okPage [sampleProject "d"]) samplePage).hasMoreProjects
      none = "" :=
  ⟨((loadProjects_short_page sampleEnv true none (okPage [sampleProject "d"]) samplePage
      [sampleProject "d"] rfl (by decide)).2 (by decide)).1,
   ((loadProjects_short_page sampleEnv true none (okPage [sampleProject "d"]) samplePage
      [sampleProject "d"] rfl (by decide)).2 (by decide)).2.1⟩

/-- C1 (as stated) fails for a fresh load that receives an empty page (k = 0):
the call returns at line 113 and `hasMoreProjects` is true after it. -/
theorem fresh_empty_page_keeps_hasMore :
    apiResult (okPage []) = Except.ok [] ∧
    ([] : List Project).length < PROJECTS_PER_PAGE ∧
    (loadProjects sampleEnv false none (okPage []) samplePage).hasMoreProjects = true ∧
    (loadProjects sampleEnv false none (okPage []) samplePage).projectsContent =
      "<p>No projects found.</p>" := by
  refine ⟨rfl, by decide, ?_, ?_⟩ <;>
    rw [loadProjects_fresh_empty sampleEnv none (okPage []) samplePage rfl]

/-- A skills array without `null` renders its tags. -/
theorem skillTags_isSome (skills : List (Option Skill))
    (h : skills.all Option.isSome = true) : ∃ tags, skillTags skills = some tags := by
  induction skills with
  | nil => exact ⟨[], rfl⟩
  | cons skill rest ih =>
    simp only [List.all_cons, Bool.and_eq_true] at h
    obtain ⟨tags, htags⟩ := ih h.2
    cases skill with
    | none => simp at h
    | some sk =>
      exact ⟨("<span class=\"skill-tag\">" ++ sk.name ++ "</span>") :: tags,
        by simp [skillTags, htags]⟩

/-- A well-formed project renders. -/
theorem projectCard_ok (env : Env) (project : Project) (h : project.wellFormed = true) :
    ∃ html, projectCard env project = Except.ok html := by
  unfold Project.wellFormed at h
  unfold projectCard
  cases hs : project.skills with
  | none => simp [hs] at h
  | some skills =>
    rw [hs] at h
    obtain ⟨tags, htags⟩ := skillTags_isSome skills h
    simp only [Option.some_bind, htags]
    exact ⟨_, rfl⟩

/-- A list of well-formed projects renders. -/
theorem projectsHtml_ok (env : Env) (projects : List Project)
    (h : projects.all Project.wellFormed = true) :
    ∃ html, projectsHtml env projects = Except.ok html := by
  have key : ∃ cards, projects.mapM (projectCard env) = Except.ok cards := by
    induction projects with
    | nil => exact ⟨[], rfl⟩
    | cons project rest ih =>
      simp only [List.all_cons, Bool.and_eq_true] at h
      obtain ⟨card, hcard⟩ := projectCard_ok env project h.1
      obtain ⟨cards, hcards⟩ := ih h.2
      refine ⟨card :: cards, ?_⟩
      rw [List.mapM_cons, hcard, hcards]
      rfl
  obtain ⟨cards, hcards⟩ := key
  refine ⟨String.join cards, ?_⟩
  unfold projectsHtml
  rw [hcards]
  rfl

/-- C2 (amended): a call hands `fetch` the request for the offset in
`currentOffset` when it suspends (0 for a fresh load, the current value for a
load-more).  When its fetch succeeds and every project it renders is well
formed, the resumed call adds 3 to the value `currentOffset` has when the
answer arrives, so `currentOffset` after the call is the offset sent plus 3
whenever no other call changed `currentOffset` while this one was suspended;
a fresh load that receives an empty page returns at line 113 and leaves
`currentOffset` as it is (0 when nothing else ran in between). -/
theorem loadProjects_offset (env : Env) (loadMore : Bool) (skillFilter : Option String)
    (p q : Page) (projects : List Project)
    (hwf : (if loadMore then q.allProjects ++ projects else projects).all Project.wellFormed
      = true) :
    (loadProjectsStart env loadMore skillFilter p).requests =
      p.requests ++ [apiRequest
        (projectsEndpoint env (if loadMore then p.currentOffset else 0) skillFilter) {}] ∧
    (loadProjectsStart env loadMore skillFilter p).currentOffset =
      (if loadMore then p.currentOffset else 0) ∧
    (¬ (loadMore = false ∧ projects = []) →
      (loadProjectsResume env loadMore skillFilter (Except.ok projects) q).currentOffset =
        q.currentOffset + PROJECTS_PER_PAGE) ∧
    (¬ (loadMore = false ∧ projects = []) →
      q.currentOffset = (loadProjectsStart env loadMore skillFilter p).currentOffset →
      (loadProjectsResume env loadMore skillFilter (Except.ok projects) q).currentOffset =
        (if loadMore then p.currentOffset else 0) + PROJECTS_PER_PAGE) ∧
    (loadMore = false ∧ projects = [] →
      (loadProjectsResume env loadMore skillFilter (Except.ok projects) q).currentOffset =
        q.currentOffset) := by
  have hstart : (loadProjectsStart env loadMore skillFilter p).currentOffset =
      (if loadMore then p.currentOffset else 0) := by
    rw [loadProjectsStart_eq]
    cases loadMore <;> rfl
  have hadd : ¬ (loadMore = false ∧ projects = []) →
      (loadProjectsResume env loadMore skillFilter (Except.ok projects) q).currentOffset =
        q.currentOffset + PROJECTS_PER_PAGE := by
    intro hfe
    obtain ⟨html, hr⟩ := projectsHtml_ok env _ hwf
    rw [loadProjectsResume_past_guard env loadMore skillFilter q projects hfe, hr]
  refine ⟨?_, hstart, hadd, fun hfe hq => ?_, ?_⟩
  · rw [loadProjectsStart_eq]
  · rw [hadd hfe, hq, hstart]
  · rintro ⟨rfl, rfl⟩
    rw [loadProjectsResume_fresh_empty]

/-- C2: a load-more call from offset 3 that receives one project, resumed on
the page it suspended on, sends offset 3 and leaves the offset at 6. -/
theorem loadProjects_offset_witness :
    (loadProjectsStart sampleEnv true none samplePage).requests =
      [apiRequest (projectsEndpoint sampleEnv 3 none) {}] ∧
    (loadProjectsResume sampleEnv true none (Except.ok [sampleProject "d"])
      (loadProjectsStart sampleEnv true none samplePage)).currentOffset
      = 3 + PROJECTS_PER_PAGE :=
  ⟨(loadProjects_offset sampleEnv true none samplePage
      (loadProjectsStart sampleEnv true none samplePage) [sampleProject "d"] (by decide)).1,
   (loadProjects_offset sampleEnv true none samplePage
      (loadProjectsStart sampleEnv true none samplePage) [sampleProject "d"]
      (by decide)).2.2.2.1 (by decide) rfl⟩

/-- C2 (as stated) fails for a fresh load that receives an empty page: the
request carries offset 0 and `currentOffset` is 0 afterwards, not 3. -/
theorem fresh_empty_page_keeps_offset :
    apiResult (okPage []) = Except.ok [] ∧
    (loadProjects sampleEnv false none (okPage []) samplePage).requests =
      [apiRequest (projectsEndpoint sampleEnv 0 none) {}] ∧
    (loadProjects sampleEnv false none (okPage []) samplePage).currentOffset = 0 ∧
    (loadProjects sampleEnv false none (okPage []) samplePage).currentOffset ≠ 0 + 3 := by
  rw [loadProjects_fresh_empty sampleEnv none (okPage []) samplePage rfl]
  exact ⟨rfl, rfl, rfl, by decide⟩

/-- Two load-more calls that overlap (the second starts before the first
resumes, as after a double click) both send offset 3, and when both have
resumed with a full page the offset is 9: the second call ends 6 above the
offset it sent. -/
theorem overlapping_loadMore_offsets :
    (loadProjectsStart sampleEnv true none
      (loadProjectsStart sampleEnv true none samplePage)).requests =
      [apiRequest (projectsEndpoint sampleEnv 3 none) {},
       apiRequest (projectsEndpoint sampleEnv 3 none) {}] ∧
    (loadProjectsResume sampleEnv true none
      (Except.ok [sampleProject "d", sampleProject "e", sampleProject "f"])
      (loadProjectsResume sampleEnv true none
        (Except.ok [sampleProject "d", sampleProject "e", sampleProject "f"])
        (loadProjectsStart sampleEnv true none
          (loadProjectsStart sampleEnv true none samplePage)))).currentOffset = 9 := by
  decide

/-- A page holding a project without `skills`, or with a `null` in `skills`,
is accumulated and clears the flag, but rendering throws and the offset is not
advanced. -/
theorem broken_project_keeps_offset :
    (loadProjects sampleEnv true none (okPage [brokenProject]) samplePage).currentOffset = 3 ∧
    (loadProjects sampleEnv true none (okPage [brokenProject]) samplePage).allProjects =
      samplePage.allProjects ++ [brokenProject] ∧
    (loadProjects sampleEnv true none (okPage [brokenProject]) samplePage).hasMoreProjects
      = false ∧
    (loadProjects sampleEnv true none (okPage [nullSkillProject]) samplePage).currentOffset
      = 3 ∧
    (loadProjects sampleEnv true none (okPage [nullSkillProject]) samplePage).projectsContent =
      "<div class=\"error\">Failed to load projects: " ++
        sampleEnv.typeErrorMessage nullSkillProject ++ "</div>" := by
  decide

/-- C3 (amended): when the API call fails the region holds the inline error
message; a load-more call leaves `currentOffset`, `allProjects` and
`hasMoreProjects` as they were, and a fresh load leaves them at the values of
its reset (0, empty, true), whatever they were before. -/
theorem loadProjects_failure (env : Env) (loadMore : Bool) (skillFilter : Option String)
    (net : FetchResult (List Project)) (p : Page) (message : String)
    (h : apiResult net = Except.error message) :
    (loadProjects env loadMore skillFilter net p).projectsContent =
      "<div class=\"error\">Failed to load projects: " ++ message ++ "</div>" ∧
    (loadMore = true →
      (loadProjects env loadMore skillFilter net p).currentOffset = p.currentOffset ∧
      (loadProjects env loadMore skillFilter net p).allProjects = p.allProjects ∧
      (loadProjects env loadMore skillFilter net p).hasMoreProjects = p.hasMoreProjects) ∧
    (loadMore = false →
      (loadProjects env loadMore skillFilter net p).currentOffset = 0 ∧
      (loadProjects env loadMore skillFilter net p).allProjects = [] ∧
      (loadProjects env loadMore skillFilter net p).hasMoreProjects = true) := by
  rw [loadProjects_of_error env loadMore skillFilter net p message h]
  refine ⟨rfl, ?_, ?_⟩
  · rintro rfl
    exact ⟨rfl, rfl, rfl⟩
  · rintro rfl
    exact ⟨rfl, rfl, rfl⟩

/-- C3: a failing load-more call on the sample page leaves offset and list. -/
theorem loadProjects_failure_witness :
    (loadProjects sampleEnv true none (FetchResult.rejected "Failed to fetch")
        samplePage).currentOffset = samplePage.currentOffset ∧
    (loadProjects sampleEnv true none (FetchResult.rejected "Failed to fetch")
        samplePage).allProjects = samplePage.allProjects :=
  ⟨((loadProjects_failure sampleEnv true none (FetchResult.rejected "Failed to fetch")
      samplePage "Failed to fetch" rfl).2.1 rfl).1,
   ((loadProjects_failure sampleEnv true none (FetchResult.rejected "Failed to fetch")
      samplePage "Failed to fetch" rfl).2.1 rfl).2.1⟩

/-- C3 (as stated) fails for a fresh load whose API call fails: the reset of
lines 92-97 ran before the call, so offset 3 became 0 and the three
accumulated projects are gone. -/
theorem fresh_failure_resets_state :
    apiResult (FetchResult.rejected "Failed to fetch" : FetchResult (List Project)) =
      Except.error "Failed to fetch" ∧
    samplePage.currentOffset = 3 ∧
    (loadProjects sampleEnv false none (FetchResult.rejected "Failed to fetch")
      samplePage).currentOffset = 0 ∧
    samplePage.allProjects.length = 3 ∧
    (loadProjects sampleEnv false none (FetchResult.rejected "Failed to fetch")
      samplePage).allProjects = [] := by
  rw [loadProjects_of_error sampleEnv false none (FetchResult.rejected "Failed to fetch")
    samplePage "Failed to fetch" rfl]
  exact ⟨rfl, rfl, rfl, rfl, rfl⟩

/-- C9: a load-more call never sets `hasMoreProjects`: if it is false before
the call it is false after it, whatever the network answers; so a call that
turns it from false to true is a fresh load. -/
theorem loadMore_keeps_hasMore_false (env : Env) (skillFilter : Option String)
    (net : FetchResult (List Project)) (p : Page) (h : p.hasMoreProjects = false) :
    (loadProjects env true skillFilter net p).hasMoreProjects = false ∧
    (∀ loadMore : Bool,
      (loadProjects env loadMore skillFilter net p).hasMoreProjects = true →
        loadMore = false) := by
  have hmore : (loadProjects env true skillFilter net p).hasMoreProjects = false := by
    rcases hnet : apiResult net with message | projects
    · rw [loadProjects_of_error env true skillFilter net p message hnet]
      exact h
    · rw [loadProjects_hasMore env true skillFilter net p projects hnet (by simp), h]
      simp
  refine ⟨hmore, fun loadMore ht => ?_⟩
  cases loadMore
  · rfl
  · rw [hmore] at ht
    cases ht

/-- C9: after a short page cleared the flag, a load-more call that receives a
full page leaves it false. -/
theorem loadMore_keeps_hasMore_false_witness :
    (loadProjects sampleEnv true none
      (okPage [sampleProject "e", sampleProject "f", sampleProject "g"])
      { samplePage with hasMoreProjects := false }).hasMoreProjects = false :=
  (loadMore_keeps_hasMore_false sampleEnv none
    (okPage [sampleProject "e", sampleProject "f", sampleProject "g"])
    { samplePage with hasMoreProjects := false } rfl).1

/-! ## `performSearch` and the debounced listener -/

/-- The trimmed form is empty exactly when every code unit is white space. -/
theorem jsTrim_eq_empty_iff (q : JSString) :
    jsTrim q = [] ↔ ∀ c ∈ q, jsIsWhiteSpace c = true := by
  unfold jsTrim
  rw [List.reverse_eq_nil_iff, List.dropWhile_eq_nil_iff]
  constructor
  · intro h
    have hnil : q.dropWhile jsIsWhiteSpace = [] := by
      rcases hd : q.dropWhile jsIsWhiteSpace with _ | ⟨c, rest⟩
      · rfl
      · have hc : jsIsWhiteSpace c = true := h c (by simp [hd])
        have hhead := List.head_dropWhile_not jsIsWhiteSpace q (by simp [hd])
        simp [hd, hc] at hhead
    exact List.dropWhile_eq_nil_iff.mp hnil
  · intro h c hc
    rw [List.dropWhile_eq_nil_iff.mpr h] at hc
    simp at hc

/-- The branch of lines 171-174: only the search-results region changes. -/
theorem performSearch_of_blank (env : Env) (query : JSString)
    (net : FetchResult (List SearchResult)) (p : Page) (h : jsTrim query = []) :
    performSearch env query net p = { p with searchResults := "" } := by
  simp [performSearch, h]

/-- C7: when the trimmed query is empty (the query is empty or all white
space), `performSearch` writes the empty string to the search-results region
and hands no request to `fetch`. -/
theorem performSearch_blank (env : Env) (query : JSString)
    (net : FetchResult (List SearchResult)) (p : Page) (h : jsTrim query = []) :
    (performSearch env query net p).searchResults = "" ∧
    (performSearch env query net p).requests = p.requests := by
  rw [performSearch_of_blank env query net p h]
  exact ⟨rfl, rfl⟩

/-- C7: the query of a space, a tab and a line feed trims to the empty string
and searches nothing. -/
theorem performSearch_blank_witness :
    jsTrim (jsString " \t\n") = [] ∧
    (performSearch sampleEnv (jsString " \t\n") (sampleSearchNet (jsString " \t\n"))
      samplePage).searchResults = "" ∧
    (performSearch sampleEnv (jsString " \t\n") (sampleSearchNet (jsString " \t\n"))
      samplePage).requests = samplePage.requests :=
  ⟨by decide, performSearch_blank sampleEnv (jsString " \t\n") _ samplePage (by decide)⟩

/-- A query with a code unit left after trimming that `encodeURIComponent`
encodes makes exactly one request, for the encoded query. -/
theorem performSearch_requests (env : Env) (query : JSString)
    (net : FetchResult (List SearchResult)) (p : Page) (encoded : String)
    (h : jsTrim query ≠ []) (henc : encodeURIComponent query = some encoded) :
    (performSearch env query net p).requests =
      p.requests ++ [apiRequest ("/search?q=" ++ encoded) {}] := by
  simp only [performSearch, beq_iff_eq, h, if_false, henc, apiCall, apiCallSend,
    performSearchCatch]
  rcases apiResult net with message | results
  · rfl
  · by_cases hl : results.length = 0 <;> simp [hl]

/-- A query with a code unit left after trimming on which
`encodeURIComponent` throws makes no request: the `catch` block writes the
error. -/
theorem performSearch_uriError (env : Env) (query : JSString)
    (net : FetchResult (List SearchResult)) (p : Page)
    (h : jsTrim query ≠ []) (henc : encodeURIComponent query = none) :
    (performSearch env query net p).requests = p.requests ∧
    (performSearch env query net p).searchResults =
      "<div class=\"error\">Search failed: " ++ env.uriErrorMessage ++ "</div>" := by
  simp [performSearch, h, henc, performSearchCatch]

/-- Without surrogate code units the loop of `Encode` does not throw. -/
theorem encodeFrom_isSome (s : JSString)
    (h : ∀ c ∈ s, isLeadSurrogate c.val = false ∧ isTrailSurrogate c.val = false) :
    ∃ encoded, encodeFrom none s = some encoded := by
  induction s with
  | nil => exact ⟨"", rfl⟩
  | cons c rest ih =>
    obtain ⟨encoded, henc⟩ := ih (fun d hd => h d (List.mem_cons_of_mem c hd))
    obtain ⟨hlead, htrail⟩ := h c (List.mem_cons_self c rest)
    by_cases hu : isUriUnescaped c.val = true
    · exact ⟨String.singleton (Char.ofNat c.val) ++ encoded, by simp [encodeFrom, hu, henc]⟩
    · exact ⟨percentEncode c.val ++ encoded, by simp [encodeFrom, hu, hlead, htrail, henc]⟩

/-- A string without surrogate code units is encoded by `encodeURIComponent`. -/
theorem encodeURIComponent_isSome (s : JSString)
    (h : ∀ c ∈ s, isLeadSurrogate c.val = false ∧ isTrailSurrogate c.val = false) :
    ∃ encoded, encodeURIComponent s = some encoded :=
  encodeFrom_isSome s h

/-- Running two lists of events one after the other. -/
theorem run_append (env : Env) (net : JSString → FetchResult (List SearchResult))
    (s : SearchBox) (first second : List Event) :
    run env net s (first ++ second) = run env net (run env net s first) second := by
  simp [run, List.foldl_append]

/-- The events of a non-empty list of inputs start with the timer turn and
the listener call of the first input. -/
theorem inputEvents_cons (a : Nat × JSString) (rest : List (Nat × JSString)) :
    inputEvents (a :: rest) =
      Event.timers a.1 :: Event.input a.1 a.2 :: inputEvents rest := by
  simp [inputEvents]

/-- A timer turn at which the pending timer is not due changes nothing, and the
listener call after it re-arms the one timer for the new value. -/
theorem step_input_notDue (env : Env) (net : JSString → FetchResult (List SearchResult))
    (s : SearchBox) (a : Nat × JSString) (rest : List (Nat × JSString))
    (h : notDue s (a :: rest) = true) :
    step env net (step env net s (Event.timers a.1)) (Event.input a.1 a.2) =
      { searchTimeout := some { fireAt := a.1 + SEARCH_DELAY, query := a.2 }
        page := s.page
        searched := s.searched } := by
  have hturn : step env net s (Event.timers a.1) = s := by
    unfold notDue at h
    unfold step
    rcases hs : s.searchTimeout with _ | timer
    · rfl
    · rw [hs] at h
      have hlt : ¬ timer.fireAt ≤ a.1 := Nat.not_le.mpr (of_decide_eq_true h)
      simp [hlt]
  rw [hturn]
  rfl

/-- During a burst no timer runs: after the listener calls of the burst the one
armed timer is the one of the last input, and page and search log are as
before. -/
theorem run_burst (env : Env) (net : JSString → FetchResult (List SearchResult))
    (inputs : List (Nat × JSString)) (last : Nat × JSString) :
    ∀ s : SearchBox, burst (inputs ++ [last]) = true → notDue s (inputs ++ [last]) = true →
      run env net s (inputEvents (inputs ++ [last])) =
        { searchTimeout := some { fireAt := last.1 + SEARCH_DELAY, query := last.2 }
          page := s.page
          searched := s.searched } := by
  induction inputs with
  | nil =>
    intro s _ hnd
    simp only [List.nil_append] at hnd ⊢
    rw [inputEvents_cons]
    simp only [inputEvents, List.map_nil, List.flatten_nil, run, List.foldl_cons, List.foldl_nil]
    exact step_input_notDue env net s last [] hnd
  | cons a rest ih =>
    intro s hb hnd
    simp only [List.cons_append] at hb hnd ⊢
    rw [inputEvents_cons]
    simp only [run, List.foldl_cons]
    rw [step_input_notDue env net s a (rest ++ [last]) hnd]
    rcases hrest : rest ++ [last] with _ | ⟨b, tail⟩
    · simp at hrest
    · rw [hrest] at hb
      simp only [burst, Bool.and_eq_true, decide_eq_true_eq] at hb
      have hstep := ih
        { searchTimeout := some { fireAt := a.1 + SEARCH_DELAY, query := a.2 }
          page := s.page
          searched := s.searched }
        (by rw [hrest]; exact hb.2) (by rw [hrest]; exact decide_eq_true hb.1)
      simp only [run, hrest] at hstep
      exact hstep

/-- C6 (amended): for every burst of N >= 1 input events (each less than
300 ms after the one before, none after the last) starting with no timer
armed, once 300 ms have passed after the last event `performSearch` has been
called exactly once, with the value of the last event, and no timer is left.
That call hands no request to `fetch` when the trimmed value is empty;
otherwise it hands exactly one, the search for the encoded value, when
`encodeURIComponent` encodes the value, and none when `encodeURIComponent`
throws on it (a lone surrogate), in which case the region shows the error. -/
theorem debounce_burst (env : Env) (net : JSString → FetchResult (List SearchResult))
    (page : Page) (inputs : List (Nat × JSString)) (last : Nat × JSString) (tEnd : Nat)
    (hb : burst (inputs ++ [last]) = true) (hEnd : last.1 + SEARCH_DELAY ≤ tEnd) :
    run env net (SearchBox.initial page) (eventsOf (inputs ++ [last]) tEnd) =
      { searchTimeout := none
        page := performSearch env last.2 (net last.2) page
        searched := [last.2] } ∧
    (jsTrim last.2 = [] →
      (run env net (SearchBox.initial page) (eventsOf (inputs ++ [last]) tEnd)).page.requests =
        page.requests) ∧
    (jsTrim last.2 ≠ [] → ∀ encoded, encodeURIComponent last.2 = some encoded →
      (run env net (SearchBox.initial page) (eventsOf (inputs ++ [last]) tEnd)).page.requests =
        page.requests ++ [apiRequest ("/search?q=" ++ encoded) {}]) ∧
    (jsTrim last.2 ≠ [] → encodeURIComponent last.2 = none →
      (run env net (SearchBox.initial page) (eventsOf (inputs ++ [last]) tEnd)).page.requests =
        page.requests ∧
      (run env net (SearchBox.initial page)
          (eventsOf (inputs ++ [last]) tEnd)).page.searchResults =
        "<div class=\"error\">Search failed: " ++ env.uriErrorMessage ++ "</div>") := by
  have hrun : run env net (SearchBox.initial page) (eventsOf (inputs ++ [last]) tEnd) =
      { searchTimeout := none
        page := performSearch env last.2 (net last.2) page
        searched := [last.2] } := by
    unfold eventsOf
    rw [run_append, run_burst env net inputs last (SearchBox.initial page) hb
      (by simp [notDue, SearchBox.initial])]
    simp [run, step, hEnd, SearchBox.initial]
  refine ⟨hrun, fun hq => ?_, fun hq encoded henc => ?_, fun hq henc => ?_⟩
  · rw [hrun, performSearch_of_blank env last.2 _ page hq]
  · rw [hrun]
    exact performSearch_requests env last.2 _ page encoded hq henc
  · rw [hrun]
    exact performSearch_uriError env last.2 _ page hq henc

/-- C6: typing `l`, `le`, `lea` at 0, 100 and 250 ms searches once, for `lea`,
and makes one request. -/
theorem debounce_burst_witness :
    burst ([(0, jsString "l"), (100, jsString "le")] ++ [(250, jsString "lea")]) = true ∧
    (run sampleEnv sampleSearchNet (SearchBox.initial samplePage)
      (eventsOf ([(0, jsString "l"), (100, jsString "le")] ++ [(250, jsString "lea")]) 550)
      ).searched = [jsString "lea"] ∧
    (run sampleEnv sampleSearchNet (SearchBox.initial samplePage)
      (eventsOf ([(0, jsString "l"), (100, jsString "le")] ++ [(250, jsString "lea")]) 550)
      ).page.requests = samplePage.requests ++ [apiRequest ("/search?q=" ++ "lea") {}] :=
  ⟨by decide,
   by rw [(debounce_burst sampleEnv sampleSearchNet samplePage
      [(0, jsString "l"), (100, jsString "le")] (250, jsString "lea") 550
      (by decide) (by decide)).1],
   (debounce_burst sampleEnv sampleSearchNet samplePage
      [(0, jsString "l"), (100, jsString "le")] (250, jsString "lea") 550
      (by decide) (by decide)).2.2.1 (by decide) "lea" (by decide)⟩

/-- C6 (as stated) fails when the last value is blank: typing `a` at 0 ms and
deleting it at 100 ms is a burst of two inputs after which `performSearch`
runs once, with the empty string, and no request is made. -/
theorem debounce_blank_last_no_request :
    burst [(0, jsString "a"), (100, jsString "")] = true ∧
    (run sampleEnv sampleSearchNet (SearchBox.initial (Page.initial "" ""))
      (eventsOf [(0, jsString "a"), (100, jsString "")] 400)).searched = [jsString ""] ∧
    (run sampleEnv sampleSearchNet (SearchBox.initial (Page.initial "" ""))
      (eventsOf [(0, jsString "a"), (100, jsString "")] 400)).page.requests = [] := by
  refine ⟨by decide, by decide, by decide⟩

/-- A last value that ends in a lone leading surrogate (`ab` followed by the
code unit D83D) is not blank, yet the one `performSearch` call makes no
request: `encodeURIComponent` throws and the region shows the error. -/
theorem debounce_lone_surrogate_no_request :
    jsTrim [0x61, 0x62, 0xD83D] ≠ [] ∧
    encodeURIComponent [0x61, 0x62, 0xD83D] = none ∧
    (run sampleEnv sampleSearchNet (SearchBox.initial (Page.initial "" ""))
      (eventsOf [(0, [0x61, 0x62, 0xD83D])] 300)).searched = [[0x61, 0x62, 0xD83D]] ∧
    (run sampleEnv sampleSearchNet (SearchBox.initial (Page.initial "" ""))
      (eventsOf [(0, [0x61, 0x62, 0xD83D])] 300)).page.requests = [] ∧
    (run sampleEnv sampleSearchNet (SearchBox.initial (Page.initial "" ""))
      (eventsOf [(0, [0x61, 0x62, 0xD83D])] 300)).page.searchResults =
      "<div class=\"error\">Search failed: URI malformed</div>" := by
  refine ⟨by decide, by decide, by decide, by decide, by decide⟩

/-! ## `loadProjects`: sequences of calls -/

/-- A call that succeeds received the page `Call.page` names. -/
theorem Call.result_of_succeeds (c : Call) (h : c.succeeds = true) :
    apiResult c.net = Except.ok c.page := by
  unfold Call.succeeds at h
  unfold Call.page
  rcases hnet : apiResult c.net with message | projects
  · simp [hnet] at h
  · rfl

/-- Running one more call after a list of calls. -/
theorem runCalls_cons (env : Env) (p : Page) (c : Call) (rest : List Call) :
    runCalls env p (c :: rest) =
      runCalls env (loadProjects env c.loadMore c.skillFilter c.net p) rest := by
  simp [runCalls]

/-- Successful load-more calls append their pages, in order, to the list. -/
theorem runCalls_loadMore_allProjects (env : Env) (more : List Call) :
    ∀ p : Page, (∀ c ∈ more, c.loadMore = true) → (∀ c ∈ more, c.succeeds = true) →
      (runCalls env p more).allProjects = p.allProjects ++ (more.map Call.page).flatten := by
  induction more with
  | nil =>
    intro p _ _
    simp [runCalls]
  | cons c rest ih =>
    intro p hm hs
    rw [runCalls_cons, ih _ (fun d hd => hm d (List.mem_cons_of_mem c hd))
      (fun d hd => hs d (List.mem_cons_of_mem c hd)),
      loadProjects_allProjects env c.loadMore c.skillFilter c.net p c.page
        (Call.result_of_succeeds c (hs c (List.mem_cons_self c rest))),
      hm c (List.mem_cons_self c rest)]
    simp

/-- C8: whatever `allProjects` held before, after a fresh load followed by n
load-more calls, all successful, `allProjects` is the concatenation, in fetch
order, of the n+1 pages; after the fresh load alone it is exactly its page. -/
theorem fresh_then_loadMore_accumulates (env : Env) (p : Page) (first : Call)
    (more : List Call) (hf : first.loadMore = false) (hm : ∀ c ∈ more, c.loadMore = true)
    (hs : ∀ c ∈ first :: more, c.succeeds = true) :
    (runCalls env p (first :: more)).allProjects = ((first :: more).map Call.page).flatten ∧
    (runCalls env p [first]).allProjects = first.page := by
  have hfirst : (loadProjects env first.loadMore first.skillFilter first.net p).allProjects =
      first.page := by
    rw [loadProjects_allProjects env first.loadMore first.skillFilter first.net p first.page
      (Call.result_of_succeeds first (hs first (List.mem_cons_self first more))), hf]
    simp
  constructor
  · rw [runCalls_cons, runCalls_loadMore_allProjects env more _ hm
      (fun d hd => hs d (List.mem_cons_of_mem first hd)), hfirst]
    simp
  · rw [runCalls_cons]
    simpa [runCalls] using hfirst

/-- C8: a fresh load of two projects and a load-more of one, on a page that
already holds three, leave the two pages in order. -/
theorem fresh_then_loadMore_accumulates_witness :
    (runCalls sampleEnv samplePage
      [{ loadMore := false, skillFilter := none,
         net := okPage [sampleProject "x", sampleProject "y"] },
       { loadMore := true, skillFilter := none, net := okPage [sampleProject "z"] }]
      ).allProjects = [sampleProject "x", sampleProject "y", sampleProject "z"] :=
  (fresh_then_loadMore_accumulates sampleEnv samplePage
    { loadMore := false, skillFilter := none,
      net := okPage [sampleProject "x", sampleProject "y"] }
    [{ loadMore := true, skillFilter := none, net := okPage [sampleProject "z"] }]
    rfl (by decide) (by decide)).1

/-- The state the script starts in is coherent. -/
theorem coherent_initial (projectsContent searchResults : String) :
    (Page.initial projectsContent searchResults).coherent := by
  simp [Page.coherent, Page.initial]

/-- One admissible call keeps the page coherent. -/
theorem coherent_loadProjects (env : Env) (c : Call) (p : Page)
    (hadm : c.admissible = true) (hp : p.coherent) :
    (loadProjects env c.loadMore c.skillFilter c.net p).coherent := by
  obtain ⟨hskills, hlen⟩ := hp
  unfold Call.admissible at hadm
  rcases hnet : apiResult c.net with message | projects
  · rw [loadProjects_of_error env c.loadMore c.skillFilter c.net p message hnet]
    cases c.loadMore
    · simp [Page.coherent, loadProjectsCatch, loadProjectsReset]
    · exact ⟨hskills, hlen⟩
  · rw [hnet] at hadm
    simp only [Bool.and_eq_true, decide_eq_true_eq] at hadm
    obtain ⟨hle, hall⟩ := hadm
    by_cases hfe : c.loadMore = false ∧ projects = []
    · obtain ⟨hl, rfl⟩ := hfe
      rw [hl, loadProjects_fresh_empty env c.skillFilter c.net p hnet]
      simp [Page.coherent]
    · have hshown : (if c.loadMore then p.allProjects ++ projects else projects).all
          Project.wellFormed = true := by
        cases c.loadMore
        · simpa using hall
        · simp only [if_true, List.all_append, Bool.and_eq_true]
          exact ⟨hskills, hall⟩
      obtain ⟨html, hr⟩ := projectsHtml_ok env _ hshown
      rw [loadProjects_past_guard env c.loadMore c.skillFilter c.net p projects hnet hfe, hr]
      refine ⟨hshown, ?_⟩
      intro hmore
      simp only at hmore ⊢
      by_cases hk : projects.length < PROJECTS_PER_PAGE
      · simp [hk] at hmore
      · have hfull : projects.length = PROJECTS_PER_PAGE := by omega
        rw [if_neg hk] at hmore
        cases hc : c.loadMore
        · simp [hfull]
        · rw [hc] at hmore
          simp only [if_true] at hmore
          simp [hfull, hlen hmore]

/-- Admissible calls run one after another keep the page coherent. -/
theorem coherent_runCalls (env : Env) (calls : List Call) :
    ∀ p : Page, p.coherent → (∀ c ∈ calls, c.admissible = true) →
      (runCalls env p calls).coherent := by
  induction calls with
  | nil =>
    intro p hp _
    simpa [runCalls] using hp
  | cons c rest ih =>
    intro p hp hadm
    rw [runCalls_cons]
    exact ih _ (coherent_loadProjects env c p (hadm c (List.mem_cons_self c rest)) hp)
      (fun d hd => hadm d (List.mem_cons_of_mem c hd))

/-- C10: in every state reached from the initial state by calls of
`loadProjects` run one after another, each failing in the API call or
receiving at most 3 projects that all have a `skills` array, if
`hasMoreProjects` is true then `allProjects.length` equals `currentOffset`,
and the request of the next load-more call asks for offset
`allProjects.length`. -/
theorem reachable_offset_counts_projects (env : Env) (projectsContent searchResults : String)
    (calls : List Call) (hadm : ∀ c ∈ calls, c.admissible = true)
    (hmore : (runCalls env (Page.initial projectsContent searchResults) calls).hasMoreProjects
      = true) :
    (runCalls env (Page.initial projectsContent searchResults) calls).allProjects.length =
      (runCalls env (Page.initial projectsContent searchResults) calls).currentOffset ∧
    (∀ (skillFilter : Option String) (net : FetchResult (List Project)),
      (loadProjects env true skillFilter net
        (runCalls env (Page.initial projectsContent searchResults) calls)).requests =
      (runCalls env (Page.initial projectsContent searchResults) calls).requests ++
        [apiRequest (projectsEndpoint env
          (runCalls env (Page.initial projectsContent searchResults) calls).allProjects.length
          skillFilter) {}]) := by
  have hlen := (coherent_runCalls env calls _
    (coherent_initial projectsContent searchResults) hadm).2 hmore
  refine ⟨hlen, fun skillFilter net => ?_⟩
  rw [loadProjects_requests, hlen]
  rfl

/-- C10: after a fresh full page, a failed load-more and a full load-more page
the flag is true and six projects are accumulated at offset 6. -/
theorem reachable_offset_counts_projects_witness :
    (runCalls sampleEnv (Page.initial "" "")
      [{ loadMore := false, skillFilter := none,
         net := okPage [sampleProject "a", sampleProject "b", sampleProject "c"] },
       { loadMore := true, skillFilter := none, net := FetchResult.rejected "Failed to fetch" },
       { loadMore := true, skillFilter := none,
         net := okPage [sampleProject "d", sampleProject "e", sampleProject "f"] }]
      ).allProjects.length =
    (runCalls sampleEnv (Page.initial "" "")
      [{ loadMore := false, skillFilter := none,
         net := okPage [sampleProject "a", sampleProject "b", sampleProject "c"] },
       { loadMore := true, skillFilter := none, net := FetchResult.rejected "Failed to fetch" },
       { loadMore := true, skillFilter := none,
         net := okPage [sampleProject "d", sampleProject "e", sampleProject "f"] }]
      ).currentOffset :=
  (reachable_offset_counts_projects sampleEnv "" ""
    [{ loadMore := false, skillFilter := none,
       net := okPage [sampleProject "a", sampleProject "b", sampleProject "c"] },
     { loadMore := true, skillFilter := none, net := FetchResult.rejected "Failed to fetch" },
     { loadMore := true, skillFilter := none,
       net := okPage [sampleProject "d", sampleProject "e", sampleProject "f"] }]
    (by decide) (by decide)).1

end Portfolio
